import Mathlib

/-!
Shallow embedding of the stock-reconciliation scheduler of
src/checkCardtraderStock/__init__.py (function main), together with the
per-user selection logic and the marketplace response interpretation.

Stored table values are dynamically typed in the source (Azure table
entities); they are modelled by the AzValue universe below.  Fields that
are absent from an entity are read with dict.get and come back as None,
so absent and None collapse to AzValue.vNone.  Legacy floating point
prices hold whole cent amounts and are modelled by vFloat carrying the
integer value; the int() coercion applied by the source (line 392) then
maps vFloat n to vInt n.
-/

set_option autoImplicit false

namespace Seeker

/-- Dynamically typed storage value, the universe of values the scanner
reads from and writes to a user wishlist row. -/
inductive AzValue where
  | vNone : AzValue
  | vBool : Bool → AzValue
  | vInt : Int → AzValue
  | vFloat : Int → AzValue
  | vStr : String → AzValue
deriving DecidableEq, Repr

/-- Python numeric coercion for equality: bool and int (and the whole
valued floats we model) compare by numeric value. -/
def pyNum : AzValue → Option Int
  | AzValue.vBool b => some (if b then 1 else 0)
  | AzValue.vInt n => some n
  | AzValue.vFloat n => some n
  | _ => none

/-- Python == on the modelled value universe: numbers compare by value
(so 0 == False and 1 == True), None only equals None, strings compare
as strings, and values of unrelated kinds are unequal. -/
def pyEq (a b : AzValue) : Bool :=
  match pyNum a, pyNum b with
  | some x, some y => x == y
  | _, _ =>
    match a, b with
    | AzValue.vNone, AzValue.vNone => true
    | AzValue.vStr s, AzValue.vStr t => s == t
    | _, _ => false

/-- A wishlist row as read from the user table (source lines 212 to 215
read PartitionKey, RowKey, name, and the loop later reads language,
finish and the three cardtrader fields). -/
structure Card where
  pk : Option String
  rk : Option String
  name : String
  language : String
  finish : String
  cardtrader_stock : AzValue
  cardtrader_low_price : AzValue
  cardtrader_id : AzValue
deriving DecidableEq, Repr

/-- Source line 217: `if not card_pk or not card_rk` skips a card whose
PartitionKey or RowKey is missing or empty (falsy). -/
def pkRkOk (c : Card) : Bool :=
  match c.pk, c.rk with
  | some p, some r => p ≠ "" && r ≠ ""
  | _, _ => false

/-- One row of the blueprints catalog table as returned by the query at
source line 237 (select id); the id field may be absent (none) and the
source treats a falsy id (absent, or zero) as unusable (line 242). -/
structure BlueprintEntity where
  id : Option Int
deriving DecidableEq, Repr

/-- Result of the blueprints table query for one card: either the query
raised (caught at source line 273) or it returned a result list. -/
inductive BlueprintQuery where
  | qerror : BlueprintQuery
  | qok : List BlueprintEntity → BlueprintQuery
deriving DecidableEq, Repr

/-- One marketplace listing from the JSON body: it may or may not carry
a price_cents field (source line 353 filters on membership). -/
structure Listing where
  price_cents : Option Int
deriving DecidableEq, Repr

/-- Decoded body of a 200 response: either undecodable JSON (the
ValueError branch at source line 362) or a JSON object mapping numeric
blueprint keys to listing arrays (source lines 343 to 348); a key whose
value is not a list is modelled as an absent key, matching the
isinstance guard at line 350. -/
inductive Body where
  | badJson : Body
  | json : List (Int × List Listing) → Body
deriving DecidableEq, Repr

/-- The HTTP outcome of the marketplace call at source line 320: either
a response with a status and body, or a raised network exception
(caught at source line 412). -/
inductive HttpResponse where
  | netError : HttpResponse
  | resp : Nat → Body → HttpResponse
deriving DecidableEq, Repr

/-- Environment for one card of the scan loop: what the blueprint
query, the marketplace call and the storage write would do. -/
structure CardEnv where
  blueprintQuery : BlueprintQuery
  httpResponse : HttpResponse
  writeOk : Bool
deriving DecidableEq, Repr

/-- data.get(str(blueprint_id)) on the decoded JSON object. -/
def lookupItems (entries : List (Int × List Listing)) (bid : Int) : Option (List Listing) :=
  (entries.find? (fun p => p.1 == bid)).map (fun p => p.2)

/-- The price_cents values of the listings that carry that field
(source line 353, the generator with the membership test). -/
def pricesOf (items : List Listing) : List Int :=
  items.filterMap Listing.price_cents

/-- Python min over a sequence: none on the empty sequence (where the
source raises ValueError), otherwise the least element. -/
def minPrice : List Int → Option Int
  | [] => none
  | p :: ps => some (ps.foldl min p)

/-- Response interpretation, source lines 334 to 382 (the 429 branch is
handled by the caller before this point, see scanStep): 200 with a
non-empty listing list for the queried blueprint gives stock true and
the least present price; an empty or absent list, a body that fails to
decode, a 200 whose min raises ValueError (no listing has a price), a
404, and every other status all give stock false and price none. -/
def interpret (bid : Int) (status : Nat) (body : Body) : Bool × Option Int :=
  if status == 200 then
    match body with
    | Body.badJson => (false, none)
    | Body.json entries =>
      match lookupItems entries bid with
      | some items =>
        if items.length > 0 then
          match minPrice (pricesOf items) with
          | some m => (true, some m)
          | none => (false, none)
        else (false, none)
      | none => (false, none)
  else (false, none)

/-- Outcome of processing one card: the update_entity call attempted
(if any), whether the marketplace API was called, and whether the scan
loop breaks (source line 378). -/
structure StepResult where
  write : Option Card
  apiCalled : Bool
  aborted : Bool
deriving DecidableEq, Repr

/-- The cleared state written on a resolver miss, source lines 250 to
262: stock False, price None, cardtrader_id None. -/
def clearedCard (c : Card) : Card :=
  { c with cardtrader_stock := AzValue.vBool false,
           cardtrader_low_price := AzValue.vNone,
           cardtrader_id := AzValue.vNone }

/-- The zero-match clearing branch, source lines 250 to 271.  Each of
the three guards is a Python identity test (is not False, is not None),
modelled by structural equality on AzValue; a write is attempted only
when at least one guard fires. -/
def clearingStep (c : Card) : StepResult :=
  let needs_update :=
    !(c.cardtrader_stock == AzValue.vBool false) ||
    !(c.cardtrader_low_price == AzValue.vNone) ||
    !(c.cardtrader_id == AzValue.vNone)
  if needs_update then
    { write := some (clearedCard c), apiCalled := false, aborted := false }
  else
    { write := none, apiCalled := false, aborted := false }

/-- int() coercion of a legacy float stored price before comparison,
source lines 391 to 392. -/
def floatToInt : AzValue → AzValue
  | AzValue.vFloat n => AzValue.vInt n
  | v => v

/-- The fetched low price as a storage value. -/
def optValInt : Option Int → AzValue
  | none => AzValue.vNone
  | some n => AzValue.vInt n

/-- The marketplace call and write-back for a card whose blueprint id
was found, source lines 290 to 418.  card1 is the in-memory entity
after line 288 has already stored the found blueprint id into it; the
source then reads current_blueprint_id back out of that same mutated
entity at line 387, so the third disjunct of needs_update compares the
found id with itself. -/
def stepApiResult (card1 : Card) (bid : Int) (r : HttpResponse) : StepResult :=
  match r with
  | HttpResponse.netError => { write := none, apiCalled := false, aborted := false }
  | HttpResponse.resp status body =>
    if status == 429 then
      { write := none, apiCalled := true, aborted := true }
    else
      let sr := interpret bid status body
      let stock_status := sr.1
      let low_price := sr.2
      let current_stock := card1.cardtrader_stock
      let current_price := floatToInt card1.cardtrader_low_price
      let current_blueprint_id := card1.cardtrader_id
      let needs_update :=
        !(pyEq current_stock (AzValue.vBool stock_status)) ||
        !(pyEq current_price (optValInt low_price)) ||
        !(pyEq current_blueprint_id (AzValue.vInt bid))
      if needs_update then
        { write := some { card1 with cardtrader_stock := AzValue.vBool stock_status,
                                     cardtrader_low_price := optValInt low_price },
          apiCalled := true, aborted := false }
      else
        { write := none, apiCalled := true, aborted := false }

/-- One iteration of the per-card scan loop, source lines 212 to 418:
skip on a falsy key; on a blueprint query error skip; on zero matches
run the clearing branch; on one or more matches take the first result
(lines 239 to 249), and if its id is falsy do nothing at all (the guard
at line 286 fails), otherwise store the id into the entity (line 288)
and call the marketplace. -/
def scanStep (c : Card) (e : CardEnv) : StepResult :=
  if pkRkOk c = false then { write := none, apiCalled := false, aborted := false }
  else
    match e.blueprintQuery with
    | BlueprintQuery.qerror => { write := none, apiCalled := false, aborted := false }
    | BlueprintQuery.qok [] => clearingStep c
    | BlueprintQuery.qok (ent :: _) =>
      match ent.id with
      | none => { write := none, apiCalled := false, aborted := false }
      | some bid =>
        if bid == 0 then { write := none, apiCalled := false, aborted := false }
        else stepApiResult { c with cardtrader_id := AzValue.vInt bid } bid e.httpResponse

/-- Whether a card would reach the marketplace call: keys present, the
blueprint query succeeded with at least one match, and the first match
carries a truthy id. -/
def reachesApi (c : Card) (e : CardEnv) : Bool :=
  pkRkOk c &&
    match e.blueprintQuery with
    | BlueprintQuery.qok (ent :: _) =>
      match ent.id with
      | some bid => bid != 0
      | none => false
    | _ => false

/-- Whether the HTTP outcome is a 429 response. -/
def is429 : HttpResponse → Bool
  | HttpResponse.netError => false
  | HttpResponse.resp s _ => s == 429

/-- The update_entity attempts a step makes (zero or one). -/
def stepWrites (r : StepResult) : List Card :=
  match r.write with
  | some w => [w]
  | none => []

/-- The marketplace calls a step makes (zero or one), source line 324. -/
def stepApi (r : StepResult) : Nat :=
  if r.apiCalled then 1 else 0

/-- Aggregate outcome of the scan loop: attempted writes in order, the
count of successful writes (updated_count), the count of marketplace
calls (api_call_count), and whether the loop was broken by a 429. -/
structure ScanOut where
  writes : List Card
  updatedCount : Nat
  apiCalls : Nat
  aborted : Bool
deriving DecidableEq, Repr

/-- Successful writes of one step: the update_entity call succeeded
only when the environment accepts it (the except at source line 409
otherwise swallows the failure). -/
def stepUpdated (r : StepResult) (e : CardEnv) : Nat :=
  match r.write with
  | some _ => if e.writeOk then 1 else 0
  | none => 0

/-- The per-card scan loop over the wishlist, source lines 212 to 418:
each card is processed in order with its environment; a step that
aborts (429) stops the loop, leaving the remaining cards untouched. -/
def scan_user : List (Card × CardEnv) → ScanOut
  | [] => { writes := [], updatedCount := 0, apiCalls := 0, aborted := false }
  | (c, e) :: rest =>
    let r := scanStep c e
    if r.aborted then
      { writes := stepWrites r, updatedCount := stepUpdated r e,
        apiCalls := stepApi r, aborted := true }
    else
      let s := scan_user rest
      { writes := stepWrites r ++ s.writes,
        updatedCount := stepUpdated r e + s.updatedCount,
        apiCalls := stepApi r + s.apiCalls,
        aborted := s.aborted }

/-- CHECK_INTERVAL_HOURS is 24 hours (source line 23), here in
seconds. -/
def checkIntervalSeconds : Int := 24 * 3600

/-- The per-user timestamp map built at source lines 113 to 128: for a
user id the latest record wins (dict overwrite), a record whose
timestamp failed to parse is stored as None (line 128), and a user with
no record is absent; dict.get collapses the last two to None, modelled
here as none. -/
def lookupStamp (recs : List (String × Option Int)) (u : String) : Option Int :=
  match recs.reverse.find? (fun r => r.1 == u) with
  | none => none
  | some (_, none) => none
  | some (_, some t) => some t

/-- Strict comparison on eligibility keys: the never-checked key
(datetime.min, modelled as none) sorts before every parsed
timestamp. -/
def keyLt : Option Int → Option Int → Bool
  | none, none => false
  | none, some _ => true
  | some _, none => false
  | some a, some b => decide (a < b)

/-- Eligibility of one user, source lines 139 to 144: a user with no
usable timestamp is eligible with the minimum key; a user whose
timestamp is strictly older than now minus CHECK_INTERVAL is eligible
with that timestamp as key; every other user is excluded. -/
def eligibleKey (now : Int) (recs : List (String × Option Int)) (u : String) : Option (Option Int) :=
  match lookupStamp recs u with
  | none => some none
  | some t => if t < now - checkIntervalSeconds then some (some t) else none

/-- The eligible_users list in order, source lines 136 to 144. -/
def eligiblePairs (now : Int) (users : List String) (recs : List (String × Option Int)) :
    List (String × Option Int) :=
  users.filterMap (fun u => (eligibleKey now recs u).map (fun k => (u, k)))

/-- First minimum of a nonempty list by key: the stable sort at source
line 151 followed by taking element zero keeps, among equal keys, the
earliest element of the original order. -/
def pickMin : (String × Option Int) → List (String × Option Int) → (String × Option Int)
  | best, [] => best
  | best, x :: xs => pickMin (if keyLt x.2 best.2 then x else best) xs

/-- User selection, source lines 113 to 153: none when no user is
eligible, otherwise the eligible user with the smallest key (oldest
first, never-checked first, ties resolved by position in the user
list). -/
def select_next_user (now : Int) (users : List String) (recs : List (String × Option Int)) :
    Option String :=
  match eligiblePairs now users recs with
  | [] => none
  | e :: es => some (pickMin e es).1

/-- Observable storage effects of one tick: attempted wishlist row
writes and freshness timestamp writes. -/
inductive Effect where
  | cardWrite : Card → Effect
  | tsWrite : String → Int → Effect
deriving DecidableEq, Repr

/-- Environment of one timer tick after storage connection: the start
instant now_utc, the known user ids, the freshness table snapshot, and
for the selected user whether its table opens (source line 160),
whether its rows list (line 179), whether the marketplace session
initializes (line 202), and the per-card environments. -/
structure TickEnv where
  now : Int
  users : List String
  stamps : List (String × Option Int)
  userTableOk : Bool
  listOk : Bool
  sessionOk : Bool
  cards : List (Card × CardEnv)
deriving Repr

/-- One timer tick, source lines 105 to 430: select a user; if its
table does not open write only the freshness record (lines 163 to 175);
if listing its rows fails stop with no writes (line 183); if the
wishlist is empty write only the freshness record (lines 185 to 198);
if the session fails stop with no writes (line 205); otherwise run the
scan loop and then write the freshness record with the now_utc captured
at line 55. -/
def runTick (env : TickEnv) : List Effect :=
  match select_next_user env.now env.users env.stamps with
  | none => []
  | some uid =>
    if env.userTableOk = false then [Effect.tsWrite uid env.now]
    else if env.listOk = false then []
    else if env.cards.isEmpty then [Effect.tsWrite uid env.now]
    else if env.sessionOk = false then []
    else (scan_user env.cards).writes.map Effect.cardWrite ++ [Effect.tsWrite uid env.now]

/-- RATE_LIMIT_SECONDS is 1.1 seconds, source line 22. -/
def RATE_LIMIT_SECONDS : Rat := 11 / 10

/-- The sleep inserted before a marketplace call, source lines 292 to
297: when the elapsed time since the recorded previous call is below
the limit, sleep for exactly the remainder. -/
def rateWait (lastCall current : Rat) : Rat :=
  if current - lastCall < RATE_LIMIT_SECONDS then
    RATE_LIMIT_SECONDS - (current - lastCall)
  else 0

/-- The instant at which the marketplace call is issued, assuming the
sleep blocks for exactly the requested duration. -/
def apiCallTime (lastCall current : Rat) : Rat :=
  current + rateWait lastCall current

lemma clearingStep_aborted (c : Card) : (clearingStep c).aborted = false := by
  unfold clearingStep
  dsimp only
  split <;> rfl

lemma clearingStep_apiCalled (c : Card) : (clearingStep c).apiCalled = false := by
  unfold clearingStep
  dsimp only
  split <;> rfl

lemma stepApiResult_aborted (c1 : Card) (bid : Int) (r : HttpResponse) :
    (stepApiResult c1 bid r).aborted = is429 r := by
  cases r with
  | netError => rfl
  | resp s b =>
    unfold stepApiResult is429
    dsimp only
    by_cases h : s == 429
    · simp [h]
    · simp only [h, Bool.false_eq_true, if_false]
      split <;> rfl

lemma scanStep_aborted (c : Card) (e : CardEnv) :
    (scanStep c e).aborted = (reachesApi c e && is429 e.httpResponse) := by
  unfold scanStep reachesApi
  cases hpk : pkRkOk c with
  | false => simp
  | true =>
    simp only [Bool.true_eq_false, if_false, Bool.true_and]
    cases hq : e.blueprintQuery with
    | qerror => simp
    | qok results =>
      cases results with
      | nil => simp [clearingStep_aborted]
      | cons ent tl =>
        cases hid : ent.id with
        | none => simp [hid]
        | some bid =>
          by_cases hb : bid = 0
          · simp [hid, hb]
          · simp [hid, hb, stepApiResult_aborted, bne]

lemma scanStep_writeOk_irrelevant (c : Card) (e : CardEnv) (b : Bool) :
    scanStep c { e with writeOk := b } = scanStep c e := by
  cases e
  rfl

lemma mem_stepWrites {w : Card} {r : StepResult} :
    w ∈ stepWrites r ↔ r.write = some w := by
  cases hr : r.write <;> simp [stepWrites, hr, eq_comm]

lemma scanStep_write_cases (c : Card) (e : CardEnv) (w : Card)
    (h : (scanStep c e).write = some w) :
    w = clearedCard c ∨ ∃ bid : Int, w.cardtrader_id = AzValue.vInt bid := by
  unfold scanStep at h
  split at h
  · simp at h
  · split at h
    · simp at h
    · rename_i results
      unfold clearingStep at h
      dsimp only at h
      split at h
      · simp at h
        left
        exact h.symm
      · simp at h
    · rename_i ent tl
      split at h
      · simp at h
      · split at h
        · simp at h
        · rename_i bid hbid hb
          right
          refine ⟨bid, ?_⟩
          unfold stepApiResult at h
          dsimp only at h
          split at h
          · simp at h
          · split at h
            · simp at h
            · split at h
              · simp at h
                subst h
                rfl
              · simp at h

lemma scan_user_nil : scan_user [] = { writes := [], updatedCount := 0, apiCalls := 0, aborted := false } := rfl

lemma scan_user_cons (c : Card) (e : CardEnv) (rest : List (Card × CardEnv)) :
    scan_user ((c, e) :: rest) =
      if (scanStep c e).aborted then
        { writes := stepWrites (scanStep c e), updatedCount := stepUpdated (scanStep c e) e,
          apiCalls := stepApi (scanStep c e), aborted := true }
      else
        { writes := stepWrites (scanStep c e) ++ (scan_user rest).writes,
          updatedCount := stepUpdated (scanStep c e) e + (scan_user rest).updatedCount,
          apiCalls := stepApi (scanStep c e) + (scan_user rest).apiCalls,
          aborted := (scan_user rest).aborted } := rfl

lemma mem_scan_user_writes :
    ∀ (l : List (Card × CardEnv)) (w : Card), w ∈ (scan_user l).writes →
      ∃ p, p ∈ l ∧ (scanStep p.1 p.2).write = some w := by
  intro l
  induction l with
  | nil => intro w h; simp [scan_user_nil] at h
  | cons p rest ih =>
    obtain ⟨c, e⟩ := p
    intro w h
    rw [scan_user_cons] at h
    split at h
    · refine ⟨(c, e), List.mem_cons_self _ _, ?_⟩
      exact mem_stepWrites.mp h
    · simp only [List.mem_append] at h
      rcases h with h | h
      · exact ⟨(c, e), List.mem_cons_self _ _, mem_stepWrites.mp h⟩
      · obtain ⟨q, hq, hw⟩ := ih w h
        exact ⟨q, List.mem_cons_of_mem _ hq, hw⟩

lemma tsWrite_in_runTick {env : TickEnv} {u : String} {t : Int}
    (h : Effect.tsWrite u t ∈ runTick env) : t = env.now := by
  unfold runTick at h
  split at h
  · simp at h
  · split at h
    · simp at h
      exact h.2
    · split at h
      · simp at h
      · split at h
        · simp at h
          exact h.2
        · split at h
          · simp at h
          · simp only [List.mem_append, List.mem_map, List.mem_singleton] at h
            rcases h with ⟨w, _, hw⟩ | h
            · exact absurd hw (by simp)
            · exact (Effect.tsWrite.injEq _ _ _ _ ▸ h).2

lemma keyLt_irrefl (a : Option Int) : keyLt a a = false := by
  cases a <;> simp [keyLt]

lemma keyLt_trans {a b c : Option Int} (h1 : keyLt a b = true) (h2 : keyLt b c = true) :
    keyLt a c = true := by
  cases a <;> cases b <;> cases c <;> simp [keyLt] at * <;> omega

lemma keyLt_split {a b c : Option Int} (h : keyLt a c = true) :
    keyLt a b = true ∨ keyLt b c = true := by
  cases a <;> cases b <;> cases c <;> simp [keyLt] at * <;> omega

lemma pickMin_mem : ∀ (xs : List (String × Option Int)) (best : String × Option Int),
    pickMin best xs ∈ best :: xs := by
  intro xs
  induction xs with
  | nil => intro best; simp [pickMin]
  | cons x xs ih =>
    intro best
    rw [pickMin]
    split
    · have := ih x
      rcases List.mem_cons.mp this with h | h
      · rw [h]; simp
      · simp [List.mem_cons_of_mem, h]
    · have := ih best
      rcases List.mem_cons.mp this with h | h
      · rw [h]; simp
      · simp [List.mem_cons_of_mem, h]

lemma pickMin_min : ∀ (xs : List (String × Option Int)) (best y : String × Option Int),
    y ∈ best :: xs → keyLt y.2 (pickMin best xs).2 = false := by
  intro xs
  induction xs with
  | nil =>
    intro best y hy
    simp at hy
    subst hy
    exact keyLt_irrefl _
  | cons x xs ih =>
    intro best y hy
    rw [pickMin]
    by_cases h : keyLt x.2 best.2 = true
    · rw [if_pos h]
      rcases List.mem_cons.mp hy with hyb | hy2
      · have hixx := ih x x (List.mem_cons_self _ _)
        subst hyb
        cases hc : keyLt y.2 (pickMin x xs).2 with
        | false => rfl
        | true =>
          rw [keyLt_trans h hc] at hixx
          exact absurd hixx (by simp)
      · exact ih x y hy2
    · rw [if_neg h]
      rcases List.mem_cons.mp hy with hyb | hy2
      · subst hyb
        exact ih y y (List.mem_cons_self _ _)
      · rcases List.mem_cons.mp hy2 with hyx | hy3
        · have hibb := ih best best (List.mem_cons_self _ _)
          subst hyx
          cases hc : keyLt y.2 (pickMin best xs).2 with
          | false => rfl
          | true =>
            rcases keyLt_split (b := best.2) hc with h2 | h2
            · exact absurd h2 h
            · rw [h2] at hibb
              exact absurd hibb (by simp)
        · exact ih best y (List.mem_cons_of_mem _ hy3)

lemma mem_eligiblePairs {now : Int} {users : List String} {recs : List (String × Option Int)}
    {u : String} {k : Option Int} :
    (u, k) ∈ eligiblePairs now users recs ↔ u ∈ users ∧ eligibleKey now recs u = some k := by
  unfold eligiblePairs
  rw [List.mem_filterMap]
  constructor
  · rintro ⟨a, ha, hf⟩
    rcases hk : eligibleKey now recs a with _ | k2
    · rw [hk] at hf; simp at hf
    · rw [hk] at hf
      simp at hf
      obtain ⟨h1, h2⟩ := hf
      subst h1
      subst h2
      exact ⟨ha, hk⟩
  · rintro ⟨hu, hk⟩
    exact ⟨u, hu, by rw [hk]; rfl⟩

lemma select_some_spec {now : Int} {users : List String} {recs : List (String × Option Int)}
    {u : String} (h : select_next_user now users recs = some u) :
    ∃ k : Option Int, (u, k) ∈ eligiblePairs now users recs ∧
      ∀ v kv, (v, kv) ∈ eligiblePairs now users recs → keyLt kv k = false := by
  unfold select_next_user at h
  rcases hp : eligiblePairs now users recs with _ | ⟨e, es⟩
  · rw [hp] at h; simp at h
  · rw [hp] at h
    simp at h
    refine ⟨(pickMin e es).2, ?_, ?_⟩
    · have h2 : (u, (pickMin e es).2) = pickMin e es := by
        rw [← h]
      rw [h2]
      exact pickMin_mem es e
    · intro v kv hv
      exact pickMin_min es e (v, kv) hv

lemma select_none_iff {now : Int} {users : List String} {recs : List (String × Option Int)} :
    select_next_user now users recs = none ↔
      ∀ u ∈ users, eligibleKey now recs u = none := by
  unfold select_next_user
  constructor
  · intro h u hu
    rcases hp : eligiblePairs now users recs with _ | ⟨e, es⟩
    · unfold eligiblePairs at hp
      have hf := List.filterMap_eq_nil_iff.mp hp u hu
      rcases hk : eligibleKey now recs u with _ | k
      · rfl
      · rw [hk] at hf; simp at hf
    · rw [hp] at h; simp at h
  · intro h
    rcases hp : eligiblePairs now users recs with _ | ⟨e, es⟩
    · rfl
    · exfalso
      have hme : e ∈ eligiblePairs now users recs := by rw [hp]; simp
      have h2 : (e.1, e.2) ∈ eligiblePairs now users recs := by simpa using hme
      have h3 := mem_eligiblePairs.mp h2
      rw [h e.1 h3.1] at h3
      exact Option.noConfusion h3.2

lemma is429_iff {r : HttpResponse} : is429 r = true ↔ ∃ b, r = HttpResponse.resp 429 b := by
  cases r <;> simp [is429]

/-- A well formed wishlist row with the given marketplace fields. -/
def sampleCard (stock price idv : AzValue) : Card :=
  { pk := some "neo"
    rk := some "123_en_nonfoil"
    name := "Sample Card"
    language := "en"
    finish := "nonfoil"
    cardtrader_stock := stock
    cardtrader_low_price := price
    cardtrader_id := idv }

/-- A per-card environment with an accepting storage backend. -/
def envFor (q : BlueprintQuery) (r : HttpResponse) : CardEnv :=
  { blueprintQuery := q, httpResponse := r, writeOk := true }

/-- A row whose stored stock and price already equal the upcoming fetch
(false, none) but whose stored catalog id 7 differs from the id 10 the
resolver is about to return. -/
def c1card : Card := sampleCard (AzValue.vBool false) AzValue.vNone (AzValue.vInt 7)

/-- Environment for c1card: the resolver returns id 10 and the
marketplace answers 200 with an empty listing list for id 10. -/
def c1env : CardEnv :=
  envFor (BlueprintQuery.qok [{ id := some 10 }])
    (HttpResponse.resp 200 (Body.json [(10, [])]))

/-- C1: evidence of the divergence.  The source intends to write back
whenever the fetched triple differs from the stored one (comments at
lines 394 and 398), but line 288 stores the freshly resolved blueprint
id into the in-memory entity before line 387 reads it back as
current_blueprint_id, so the id component of the comparison always
compares the new id with itself.  Here the stored stock and price equal
the fetched values while the stored catalog id 7 differs from the
resolved id 10, and yet no write is attempted: the stored catalog id is
left stale, contradicting the claimed write-back condition (the
idempotence half of the claim is unaffected, since the dead comparison
also changes nothing on a second run). -/
theorem stale_catalog_id_not_rewritten :
    interpret 10 200 (Body.json [(10, [])]) = (false, none) ∧
    c1card.cardtrader_stock = AzValue.vBool false ∧
    c1card.cardtrader_low_price = AzValue.vNone ∧
    c1card.cardtrader_id = AzValue.vInt 7 ∧
    (scanStep c1card c1env).apiCalled = true ∧
    (scanStep c1card c1env).write = none := by
  decide

/-- C2: a step aborts the scan loop exactly when the marketplace call
answered 429; an aborted head stops the loop so the remaining items
contribute no marketplace calls and no writes; a non-aborted head lets
the loop proceed over the remaining items whatever its own outcome
(resolver error, network error, or a rejected storage write, which by
the fifth conjunct cannot change the step outcome at all); and whenever
a user was selected and the scan loop ran, the freshness record is
still written afterwards. -/
theorem scan_aborts_only_on_429 :
    (∀ c e, (scanStep c e).aborted = true → ∃ b, e.httpResponse = HttpResponse.resp 429 b) ∧
    (∀ c e b, reachesApi c e = true → e.httpResponse = HttpResponse.resp 429 b →
      (scanStep c e).aborted = true) ∧
    (∀ c e rest, (scanStep c e).aborted = true →
      scan_user ((c, e) :: rest) =
        { writes := stepWrites (scanStep c e), updatedCount := stepUpdated (scanStep c e) e,
          apiCalls := stepApi (scanStep c e), aborted := true }) ∧
    (∀ c e rest, (scanStep c e).aborted = false →
      scan_user ((c, e) :: rest) =
        { writes := stepWrites (scanStep c e) ++ (scan_user rest).writes,
          updatedCount := stepUpdated (scanStep c e) e + (scan_user rest).updatedCount,
          apiCalls := stepApi (scanStep c e) + (scan_user rest).apiCalls,
          aborted := (scan_user rest).aborted }) ∧
    (∀ c e b, scanStep c { e with writeOk := b } = scanStep c e) ∧
    (∀ env uid, select_next_user env.now env.users env.stamps = some uid →
      env.userTableOk = true → env.listOk = true → env.cards.isEmpty = false →
      env.sessionOk = true → Effect.tsWrite uid env.now ∈ runTick env) := by
  refine ⟨?_, ?_, ?_, ?_, ?_, ?_⟩
  · intro c e h
    rw [scanStep_aborted] at h
    exact is429_iff.mp (Bool.and_elim_right h)
  · intro c e b h1 h2
    rw [scanStep_aborted, h1, h2]
    simp [is429]
  · intro c e rest h
    rw [scan_user_cons, if_pos h]
  · intro c e rest h
    rw [scan_user_cons]
    simp [h]
  · intro c e b
    exact scanStep_writeOk_irrelevant c e b
  · intro env uid h1 h2 h3 h4 h5
    unfold runTick
    rw [h1]
    simp [h2, h3, h4, h5]

/-- Closed instance of the abort behaviour: a head item whose
marketplace call answers 429 makes the loop ignore the remaining items
entirely. -/
theorem scan_aborts_only_on_429_witness :
    scan_user ((c1card, envFor (BlueprintQuery.qok [{ id := some 10 }])
        (HttpResponse.resp 429 Body.badJson)) :: [(c1card, c1env)]) =
      { writes := stepWrites (scanStep c1card (envFor (BlueprintQuery.qok [{ id := some 10 }])
          (HttpResponse.resp 429 Body.badJson))),
        updatedCount := stepUpdated (scanStep c1card (envFor (BlueprintQuery.qok [{ id := some 10 }])
          (HttpResponse.resp 429 Body.badJson))) (envFor (BlueprintQuery.qok [{ id := some 10 }])
          (HttpResponse.resp 429 Body.badJson)),
        apiCalls := stepApi (scanStep c1card (envFor (BlueprintQuery.qok [{ id := some 10 }])
          (HttpResponse.resp 429 Body.badJson))),
        aborted := true } :=
  scan_aborts_only_on_429.2.2.1 c1card
    (envFor (BlueprintQuery.qok [{ id := some 10 }]) (HttpResponse.resp 429 Body.badJson))
    [(c1card, c1env)] (by decide)

/-- C3: every write the scan attempts preserves the invariant that a
null catalog id comes with stock false and price none; in particular a
resolver miss always writes exactly the cleared state, and every card
write a whole tick emits satisfies the invariant. -/
theorem writes_preserve_null_id_invariant :
    (∀ c e w, (scanStep c e).write = some w → w.cardtrader_id = AzValue.vNone →
      w.cardtrader_stock = AzValue.vBool false ∧ w.cardtrader_low_price = AzValue.vNone) ∧
    (∀ c e w, e.blueprintQuery = BlueprintQuery.qok [] → (scanStep c e).write = some w →
      w = clearedCard c) ∧
    (∀ env w, Effect.cardWrite w ∈ runTick env → w.cardtrader_id = AzValue.vNone →
      w.cardtrader_stock = AzValue.vBool false ∧ w.cardtrader_low_price = AzValue.vNone) := by
  have key : ∀ c e w, (scanStep c e).write = some w → w.cardtrader_id = AzValue.vNone →
      w.cardtrader_stock = AzValue.vBool false ∧ w.cardtrader_low_price = AzValue.vNone := by
    intro c e w h hid
    rcases scanStep_write_cases c e w h with hcl | ⟨bid, hbid⟩
    · subst hcl
      exact ⟨rfl, rfl⟩
    · rw [hid] at hbid
      exact absurd hbid (by simp)
  refine ⟨key, ?_, ?_⟩
  · intro c e w hq h
    unfold scanStep at h
    rw [hq] at h
    split at h
    · simp at h
    · unfold clearingStep at h
      dsimp only at h
      split at h
      · simp at h
        exact h.symm
      · simp at h
  · intro env w hmem hid
    unfold runTick at hmem
    split at hmem
    · simp at hmem
    · split at hmem
      · simp at hmem
      · split at hmem
        · simp at hmem
        · split at hmem
          · simp at hmem
          · split at hmem
            · simp at hmem
            · simp only [List.mem_append, List.mem_map, List.mem_singleton] at hmem
              rcases hmem with ⟨w2, hw2, heq⟩ | hmem
              · have hww : w2 = w := by
                  injection heq
                subst hww
                obtain ⟨p, _, hwr⟩ := mem_scan_user_writes _ w2 hw2
                exact key p.1 p.2 w2 hwr hid
              · exact absurd hmem (by simp)

/-- Closed instance of the invariant: the write attempted after a
resolver miss on a row that previously claimed stock carries the fully
cleared state. -/
theorem writes_preserve_null_id_invariant_witness :
    (clearedCard (sampleCard (AzValue.vBool true) (AzValue.vInt 400) (AzValue.vInt 9))).cardtrader_stock
        = AzValue.vBool false ∧
    (clearedCard (sampleCard (AzValue.vBool true) (AzValue.vInt 400) (AzValue.vInt 9))).cardtrader_low_price
        = AzValue.vNone :=
  writes_preserve_null_id_invariant.1
    (sampleCard (AzValue.vBool true) (AzValue.vInt 400) (AzValue.vInt 9))
    (envFor (BlueprintQuery.qok []) HttpResponse.netError)
    (clearedCard (sampleCard (AzValue.vBool true) (AzValue.vInt 400) (AzValue.vInt 9)))
    (by decide) (by decide)

/-- A row whose stored fields all differ from the cleared state. -/
def c4card : Card := sampleCard (AzValue.vBool true) (AzValue.vInt 500) (AzValue.vInt 9)

/-- Environment for c4card: the blueprint query matches one entry whose
id field is falsy (zero models the missing or empty catalog id the
guard at source line 286 rejects). -/
def c4env : CardEnv := envFor (BlueprintQuery.qok [{ id := some 0 }]) HttpResponse.netError

/-- C4 counterexample: the catalog lookup matched one entry whose id
field is empty, the stored fields all differ from the cleared state
(false, none, none), and yet no write is attempted, contradicting the
claim that the item is cleared exactly like a zero-match miss. -/
theorem matched_entry_empty_id_counterexample :
    c4card.cardtrader_stock ≠ AzValue.vBool false ∧
    c4card.cardtrader_low_price ≠ AzValue.vNone ∧
    c4card.cardtrader_id ≠ AzValue.vNone ∧
    (scanStep c4card c4env).write = none := by
  decide

/-- C4 amended: when the catalog lookup matches at least one entry but
the matched entry carries a falsy catalog id, the item is skipped
outright: no marketplace call, no write of any kind (the stored fields
are left untouched, unlike the zero-match branch which clears them),
and no abort. -/
theorem matched_entry_empty_id_skips_item :
    ∀ c e ent tl, e.blueprintQuery = BlueprintQuery.qok (ent :: tl) →
      (ent.id = none ∨ ent.id = some 0) →
      scanStep c e = { write := none, apiCalled := false, aborted := false } := by
  intro c e ent tl hq hid
  unfold scanStep
  rw [hq]
  split
  · rfl
  · dsimp only
    rcases hid with h | h <;> rw [h] <;> simp

/-- Closed instance of the amended C4 behaviour at the counterexample
input. -/
theorem matched_entry_empty_id_skips_item_witness :
    scanStep c4card c4env = { write := none, apiCalled := false, aborted := false } :=
  matched_entry_empty_id_skips_item c4card c4env { id := some 0 } [] (by decide) (Or.inr (by decide))

/-- C5: selection semantics.  The never-checked key none is below every
key, a user with no usable record gets exactly that key, and whenever
some user has it the selected user has it too; a user whose parsed
timestamp is more recent than now minus CHECK_INTERVAL is never
selected; a selected user is a known eligible user whose key is minimal
among all eligible users (the function being deterministic by
construction, ties are resolved reproducibly by list position); and no
user is returned exactly when no user is eligible. -/
theorem select_next_user_spec :
    ∀ (now : Int) (users : List String) (recs : List (String × Option Int)),
    ((∀ k, keyLt k none = false) ∧
     (∀ u, lookupStamp recs u = none → eligibleKey now recs u = some none)) ∧
    (∀ u, u ∈ users → lookupStamp recs u = none →
      ∃ v, select_next_user now users recs = some v ∧ lookupStamp recs v = none) ∧
    (∀ u t, u ∈ users → lookupStamp recs u = some t → now - checkIntervalSeconds < t →
      select_next_user now users recs ≠ some u) ∧
    (∀ u, select_next_user now users recs = some u →
      ∃ k, u ∈ users ∧ eligibleKey now recs u = some k ∧
        ∀ v kv, v ∈ users → eligibleKey now recs v = some kv → keyLt kv k = false) ∧
    (select_next_user now users recs = none ↔ ∀ u ∈ users, eligibleKey now recs u = none) := by
  intro now users recs
  refine ⟨⟨?_, ?_⟩, ?_, ?_, ?_, select_none_iff⟩
  · intro k
    cases k <;> rfl
  · intro u hu
    unfold eligibleKey
    rw [hu]
  · intro u hu hnone
    have hk : eligibleKey now recs u = some none := by
      unfold eligibleKey
      rw [hnone]
    cases hsel : select_next_user now users recs with
    | none =>
      have := select_none_iff.mp hsel u hu
      rw [hk] at this
      exact absurd this (by simp)
    | some v =>
      obtain ⟨k, hvmem, hmin⟩ := select_some_spec hsel
      have hvk := mem_eligiblePairs.mp hvmem
      have humem : (u, (none : Option Int)) ∈ eligiblePairs now users recs :=
        mem_eligiblePairs.mpr ⟨hu, hk⟩
      have hlt := hmin u none humem
      have hknone : k = none := by
        cases k with
        | none => rfl
        | some t => simp [keyLt] at hlt
      refine ⟨v, rfl, ?_⟩
      rw [hknone] at hvk
      rcases hl : lookupStamp recs v with _ | t
      · rfl
      · exfalso
        have h2 := hvk.2
        unfold eligibleKey at h2
        rw [hl] at h2
        dsimp only at h2
        by_cases hc : t < now - checkIntervalSeconds
        · rw [if_pos hc] at h2
          exact Option.noConfusion (Option.some.inj h2)
        · rw [if_neg hc] at h2
          exact Option.noConfusion h2
  · intro u t hu hl ht hsel
    obtain ⟨k, huk, _⟩ := select_some_spec hsel
    have hek := (mem_eligiblePairs.mp huk).2
    unfold eligibleKey at hek
    rw [hl] at hek
    dsimp only at hek
    by_cases hc : t < now - checkIntervalSeconds
    · omega
    · rw [if_neg hc] at hek
      exact Option.noConfusion hek
  · intro u hsel
    obtain ⟨k, huk, hmin⟩ := select_some_spec hsel
    have h1 := mem_eligiblePairs.mp huk
    refine ⟨k, h1.1, h1.2, ?_⟩
    intro v kv hv hvk
    exact hmin v kv (mem_eligiblePairs.mpr ⟨hv, hvk⟩)

/-- Closed instance: a user whose timestamp lies inside the check
interval is not selected. -/
theorem select_next_user_spec_witness :
    select_next_user 1000000 ["a"] [("a", some 999999)] ≠ some "a" :=
  (select_next_user_spec 1000000 ["a"] [("a", some 999999)]).2.2.1 "a" 999999
    (by decide) (by decide) (by decide)

lemma interpret_200_json (bid : Int) (entries : List (Int × List Listing)) :
    interpret bid 200 (Body.json entries) =
      (match lookupItems entries bid with
       | some items =>
         if items.length > 0 then
           match minPrice (pricesOf items) with
           | some m => (true, some m)
           | none => (false, none)
         else (false, none)
       | none => (false, none)) := rfl

lemma interpret_not200 (bid : Int) (s : Nat) (b : Body) (h : s ≠ 200) :
    interpret bid s b = (false, none) := by
  unfold interpret
  rw [if_neg (by simp [h])]

/-- C6: marketplace response interpretation.  A 200 whose body maps the
queried catalog id to a non-empty listing list with at least one priced
listing gives stock true and the minimum of the present price fields
(the quoted example included); a 200 with an empty or absent list, an
undecodable 200 body, a 404, and every other status (the 429 that the
loop intercepts aside) give stock false with price none; and such a
non-429 response never aborts the loop, so the scan continues with the
next item. -/
theorem query_stock_interpretation :
    (∀ bid entries items, lookupItems entries bid = some items → pricesOf items ≠ [] →
      interpret bid 200 (Body.json entries) = (true, minPrice (pricesOf items))) ∧
    (interpret 123 200 (Body.json [(123, [{ price_cents := some 500 }, { price_cents := some 300 }])])
      = (true, some 300)) ∧
    (∀ bid entries, lookupItems entries bid = some [] →
      interpret bid 200 (Body.json entries) = (false, none)) ∧
    (∀ bid entries, lookupItems entries bid = none →
      interpret bid 200 (Body.json entries) = (false, none)) ∧
    (∀ bid, interpret bid 200 Body.badJson = (false, none)) ∧
    (∀ bid b, interpret bid 404 b = (false, none)) ∧
    (∀ bid s b, s ≠ 200 → interpret bid s b = (false, none)) ∧
    (∀ c e s b, e.httpResponse = HttpResponse.resp s b → s ≠ 429 →
      (scanStep c e).aborted = false) := by
  refine ⟨?_, by decide, ?_, ?_, ?_, ?_, ?_, ?_⟩
  · intro bid entries items h1 h2
    have hne : items ≠ [] := by
      intro h
      rw [h] at h2
      exact h2 rfl
    rw [interpret_200_json, h1]
    dsimp only
    rw [if_pos (by simpa [List.length_pos] using hne)]
    rcases hm : minPrice (pricesOf items) with _ | m
    · exfalso
      rcases hp : pricesOf items with _ | ⟨p, ps⟩
      · exact h2 hp
      · rw [hp] at hm
        exact Option.noConfusion hm
    · rfl
  · intro bid entries h1
    rw [interpret_200_json, h1]
    decide
  · intro bid entries h1
    rw [interpret_200_json, h1]
  · intro bid
    rfl
  · intro bid b
    exact interpret_not200 bid 404 b (by decide)
  · intro bid s b h
    exact interpret_not200 bid s b h
  · intro c e s b h1 h2
    rw [scanStep_aborted, h1]
    simp [is429, h2]

/-- Closed instance: the quoted example response for catalog id 123
yields in stock with the lower of the two listed prices. -/
theorem query_stock_interpretation_witness :
    interpret 123 200 (Body.json [(123, [{ price_cents := some 500 }, { price_cents := some 300 }])])
      = (true, minPrice (pricesOf [{ price_cents := some 500 }, { price_cents := some 300 }])) :=
  query_stock_interpretation.1 123
    [(123, [{ price_cents := some 500 }, { price_cents := some 300 }])]
    [{ price_cents := some 500 }, { price_cents := some 300 }] (by decide) (by decide)

/-- C7: rate limiting.  When the elapsed time since the recorded
previous call is below RATE_LIMIT_SECONDS the loop sleeps for exactly
the remainder (and otherwise not at all), so the issue instant of the
next call is at least RATE_LIMIT_SECONDS after the recorded time of
the previous call, and hence at least RATE_LIMIT_SECONDS after any
instant no later than it, in particular the previous issue instant. -/
theorem rate_limit_spacing :
    ∀ lastCall current : Rat,
    (current - lastCall < RATE_LIMIT_SECONDS →
      rateWait lastCall current = RATE_LIMIT_SECONDS - (current - lastCall)) ∧
    (RATE_LIMIT_SECONDS ≤ current - lastCall → rateWait lastCall current = 0) ∧
    RATE_LIMIT_SECONDS ≤ apiCallTime lastCall current - lastCall ∧
    (∀ prevIssue : Rat, prevIssue ≤ lastCall →
      RATE_LIMIT_SECONDS ≤ apiCallTime lastCall current - prevIssue) := by
  intro lastCall current
  refine ⟨?_, ?_, ?_, ?_⟩
  · intro h
    unfold rateWait
    rw [if_pos h]
  · intro h
    unfold rateWait
    rw [if_neg (not_lt.mpr h)]
  · unfold apiCallTime rateWait
    split_ifs with h <;> linarith
  · intro prevIssue hp
    unfold apiCallTime rateWait
    split_ifs with h <;> linarith

/-- Closed instance: a call half a second after the previous one sleeps
for the remaining six tenths and is issued no closer than the limit. -/
theorem rate_limit_spacing_witness :
    rateWait 0 (1 / 2) = RATE_LIMIT_SECONDS - (1 / 2 - 0) ∧
    RATE_LIMIT_SECONDS ≤ apiCallTime 0 (1 / 2) - 0 :=
  ⟨(rate_limit_spacing 0 (1 / 2)).1 (by norm_num [RATE_LIMIT_SECONDS]),
   (rate_limit_spacing 0 (1 / 2)).2.2.1⟩

/-- C8: a 200 whose body holds a non-empty listing list for the catalog
id in which no listing carries a price field reports out of stock with
price none (the min of the empty price sequence raises ValueError,
which the source catches in the same handler as a decode failure),
never in stock with an unknown price. -/
theorem no_price_fields_means_out_of_stock :
    ∀ bid entries items, lookupItems entries bid = some items → items ≠ [] →
      (∀ l ∈ items, l.price_cents = none) →
      interpret bid 200 (Body.json entries) = (false, none) := by
  intro bid entries items h1 h2 h3
  have hp : pricesOf items = [] := by
    unfold pricesOf
    exact List.filterMap_eq_nil_iff.mpr h3
  rw [interpret_200_json, h1]
  dsimp only
  rw [if_pos (by simpa [List.length_pos] using h2), hp]
  rfl

/-- Closed instance of the priceless-listing behaviour. -/
theorem no_price_fields_means_out_of_stock_witness :
    interpret 5 200 (Body.json [(5, [{ price_cents := none }])]) = (false, none) :=
  no_price_fields_means_out_of_stock 5 [(5, [{ price_cents := none }])]
    [{ price_cents := none }] (by decide) (by decide) (by decide)

/-- C9: the zero-match clearing branch tests the stored stock field by
identity with the boolean False, so any stored value other than that
boolean, including an absent field, None, or the string false, triggers
a clearing write even when the remaining fields are already
cleared. -/
theorem clearing_guard_is_identity_with_false :
    ∀ c e, pkRkOk c = true → e.blueprintQuery = BlueprintQuery.qok [] →
      c.cardtrader_stock ≠ AzValue.vBool false →
      (scanStep c e).write = some (clearedCard c) := by
  intro c e hpk hq hst
  unfold scanStep
  rw [hq, hpk, if_neg (by simp)]
  dsimp only
  unfold clearingStep
  dsimp only
  split
  · rfl
  · rename_i hneg
    exfalso
    simp only [Bool.or_eq_true, Bool.not_eq_true', beq_eq_false_iff_ne, ne_eq, not_or,
      not_not] at hneg
    exact hst hneg.1.1

/-- Closed instance: a stored stock holding the string false, with
price and catalog id already cleared, still receives a clearing
write. -/
theorem clearing_guard_is_identity_with_false_witness :
    (scanStep (sampleCard (AzValue.vStr "false") AzValue.vNone AzValue.vNone)
        (envFor (BlueprintQuery.qok []) HttpResponse.netError)).write =
      some (clearedCard (sampleCard (AzValue.vStr "false") AzValue.vNone AzValue.vNone)) :=
  clearing_guard_is_identity_with_false
    (sampleCard (AzValue.vStr "false") AzValue.vNone AzValue.vNone)
    (envFor (BlueprintQuery.qok []) HttpResponse.netError)
    (by decide) (by decide) (by decide)

/-- C10: every freshness timestamp a tick writes carries the now
captured at the start of the invocation, on every completion path: the
missing user table path, the empty wishlist path, and the scan path
(whether the scan completed or was aborted by a 429, since the final
conjunct holds for every per-card environment list). -/
theorem freshness_timestamp_is_tick_start :
    (∀ env u t, Effect.tsWrite u t ∈ runTick env → t = env.now) ∧
    (∀ env uid, select_next_user env.now env.users env.stamps = some uid →
      env.userTableOk = false → runTick env = [Effect.tsWrite uid env.now]) ∧
    (∀ env uid, select_next_user env.now env.users env.stamps = some uid →
      env.userTableOk = true → env.listOk = true → env.cards.isEmpty = true →
      runTick env = [Effect.tsWrite uid env.now]) ∧
    (∀ env uid, select_next_user env.now env.users env.stamps = some uid →
      env.userTableOk = true → env.listOk = true → env.cards.isEmpty = false →
      env.sessionOk = true →
      runTick env = (scan_user env.cards).writes.map Effect.cardWrite
        ++ [Effect.tsWrite uid env.now]) := by
  refine ⟨?_, ?_, ?_, ?_⟩
  · intro env u t h
    exact tsWrite_in_runTick h
  · intro env uid h1 h2
    unfold runTick
    rw [h1]
    simp [h2]
  · intro env uid h1 h2 h3 h4
    unfold runTick
    rw [h1]
    simp [h2, h3, h4]
  · intro env uid h1 h2 h3 h4 h5
    unfold runTick
    rw [h1]
    simp [h2, h3, h4, h5]

/-- A tick environment whose user table is missing: the tick still
writes the freshness record, with the captured start instant. -/
def c10env : TickEnv :=
  { now := 5, users := ["u1"], stamps := [], userTableOk := false,
    listOk := true, sessionOk := true, cards := [] }

/-- Closed instance: the single timestamp written by the missing-table
path carries the start instant of the tick. -/
theorem freshness_timestamp_is_tick_start_witness :
    Effect.tsWrite "u1" (5 : Int) ∈ runTick c10env ∧ (5 : Int) = c10env.now :=
  ⟨by decide, freshness_timestamp_is_tick_start.1 c10env "u1" 5 (by decide)⟩

end Seeker
